import Mathlib

/-!
Shallow embedding of `src/nodes/RyzePixelSender/RyzePixelSender.node.ts`
(the `RyzePixelSender.execute` pipeline: validation, deduplication
classification, pixel dispatch, database mutation planning, and report
building), together with theorems settling the specification claims.

JavaScript runtime values appearing in event fields are modelled by `JsVal`;
the JS `Number()` coercion is modelled by `toNumber`, with `none` playing the
role of `NaN` (so strict equality on coerced values, `jsNumEq`, is never true
when either side is `NaN`, exactly as `===` behaves on `NaN` in JS).
-/

namespace RyzePixel

/-- A JavaScript value as it can appear in an input event field or a MySQL
row field: a number, a string, `undefined` (absent field) or `null`.
These are the shapes that occur for the JSON event fields and the
`mysql2` row fields used by the node. -/
inductive JsVal where
  | vnum (q : ℚ)
  | vstr (s : String)
  | vundef
  | vnull
deriving DecidableEq

/-- JS truthiness of a `JsVal` (the `!item.date || ...` validation test):
`0`, the empty string, `undefined` and `null` are falsy. -/
def truthy : JsVal → Bool
  | JsVal.vnum q => decide (q ≠ 0)
  | JsVal.vstr s => decide (s ≠ "")
  | JsVal.vundef => false
  | JsVal.vnull => false

/-- Does the pattern match at the head of the list? (model of a string
pattern matching at one position; pattern given first). -/
def matchesAt : List Char → List Char → Bool
  | [], _ => true
  | _ :: _, [] => false
  | c :: cs, d :: ds => c == d && matchesAt cs ds

/-- Index of the first occurrence of `pat` in the list, if any
(model of JS `String.prototype.indexOf`, with `none` for `-1`). -/
def firstMatchIdx (pat : List Char) : List Char → Option ℕ
  | [] => if matchesAt pat [] then some 0 else none
  | s@(_ :: rest) =>
    if matchesAt pat s then some 0 else (firstMatchIdx pat rest).map (· + 1)

/-- Model of JS `s.includes(pat)`. -/
def jsIncludes (s pat : String) : Bool := (firstMatchIdx pat.data s.data).isSome

/-- Model of JS `s.indexOf(pat)` (`-1` when absent). -/
def jsIndexOf (s pat : String) : Int :=
  match firstMatchIdx pat.data s.data with
  | some i => (i : Int)
  | none => -1

/-- Model of JS `s.substring(i)` for the one-argument form: the start index
is clamped into `[0, s.length]` and the suffix from there is returned. -/
def jsSubstringFrom (s : String) (i : Int) : String := ⟨s.data.drop i.toNat⟩

/-- Numeric value of a list of decimal digit characters. -/
def natOfDigits (cs : List Char) : ℕ :=
  cs.foldl (fun a c => 10 * a + (c.toNat - 48)) 0

/-- Split a character list at the first `.`: integer part and, when a dot is
present, the remainder after it. -/
def splitDot : List Char → List Char × Option (List Char)
  | [] => ([], none)
  | c :: rest =>
    if c = '.' then ([], some rest)
    else
      let p := splitDot rest
      (c :: p.1, p.2)

/-- Model of JS `Number()` on a string, for the plain decimal forms that
occur in this pipeline (optional sign, digits, optional fractional part;
the empty string coerces to `0`). `none` models `NaN`. -/
def jsStrToNum (s : String) : Option ℚ :=
  match s.data with
  | [] => some 0
  | cs =>
    let sb : Bool × List Char :=
      match cs with
      | '-' :: rest => (true, rest)
      | '+' :: rest => (false, rest)
      | _ => (false, cs)
    let ip := (splitDot sb.2).1
    let mag : Option ℚ :=
      match (splitDot sb.2).2 with
      | none =>
        if ip ≠ [] ∧ ip.all Char.isDigit then some (mkRat (natOfDigits ip) 1) else none
      | some fp =>
        if (ip ≠ [] ∨ fp ≠ []) ∧ ip.all Char.isDigit ∧ fp.all Char.isDigit then
          some (mkRat (natOfDigits ip * 10 ^ fp.length + natOfDigits fp) (10 ^ fp.length))
        else none
    match mag with
    | none => none
    | some q => some (if sb.1 then -q else q)

/-- Model of JS `Number()` coercion on a `JsVal`; `none` models `NaN`
(`Number(undefined)` is `NaN`, `Number(null)` is `0`). -/
def toNumber : JsVal → Option ℚ
  | JsVal.vnum q => some q
  | JsVal.vstr s => jsStrToNum s
  | JsVal.vundef => none
  | JsVal.vnull => some 0

/-- JS strict equality `Number(a) === Number(b)` on coerced values: `NaN`
(here `none`) is equal to nothing, including itself. -/
def jsNumEq : Option ℚ → Option ℚ → Bool
  | some a, some b => decide (a = b)
  | _, _ => false

/-- JS strict equality `===` between two `JsVal`s (used for `trx_id`
matching: `row.trx_id === item.trx_id`). -/
def jsStrictEq : JsVal → JsVal → Bool
  | JsVal.vnum a, JsVal.vnum b => decide (a = b)
  | JsVal.vstr a, JsVal.vstr b => decide (a = b)
  | JsVal.vundef, JsVal.vundef => true
  | JsVal.vnull, JsVal.vnull => true
  | _, _ => false

/-- An input event as received by the node (the `InputItem` interface;
fields are kept as the raw JS values, since the TS `as` casts perform no
conversion and no defaulting). -/
structure RawItem where
  date : JsVal
  token : JsVal
  event : JsVal
  trx_id : JsVal
  io_id : JsVal
  commission_amount : JsVal
  amount : JsVal
  currency : JsVal
  parent_api_call : JsVal
deriving DecidableEq

/-- A stored row of `scraper_tokens` (the `ExistingRecord` interface).
`created_at` is carried as its ISO string form, which is all the node
reads from it. -/
structure ExistingRecord where
  trx_id : JsVal
  amount : JsVal
  commission_amount : JsVal
  created_at : String
deriving DecidableEq

/-- The three-way classification of an event against stored state. -/
inductive Status where
  | new
  | duplicate
  | updated
deriving DecidableEq

/-- What is done with an event after classification. -/
inductive Action where
  | send_to_pixel
  | skip
deriving DecidableEq

/-- Classification of one event against its optional matching record:
the branch structure of the per-item loop (`!existing` / the
`Number(...) === Number(...)` conjunction / otherwise). -/
def classify (item : RawItem) (existing : Option ExistingRecord) : Status :=
  match existing with
  | none => Status.new
  | some ex =>
    if jsNumEq (toNumber ex.amount) (toNumber item.amount) &&
       jsNumEq (toNumber ex.commission_amount) (toNumber item.commission_amount) then
      Status.duplicate
    else
      Status.updated

/-- Pixel outcome recorded on a processed event (`'OK' | 'ERROR'`). -/
inductive PixelStatus where
  | OK
  | ERROR
deriving DecidableEq

/-- A processed event (the TS `ProcessedItem` interface): the event, its
classification, what to do with it, the matching record when one was found,
and the per-event pixel outcome fields (absent until dispatch). -/
structure ProcessedItem where
  item : RawItem
  status : Status
  action : Action
  existing : Option ExistingRecord := none
  pixelStatus : Option PixelStatus := none
  pixelError : Option String := none
deriving DecidableEq

/-- Lookup of the stored record matching an event, by strict `trx_id`
equality (`existingRecords.find(row => row.trx_id === item.trx_id)`). -/
def findExisting (records : List ExistingRecord) (item : RawItem) : Option ExistingRecord :=
  records.find? fun row => jsStrictEq row.trx_id item.trx_id

/-- The per-item body of the classification loop: find the matching record
and push a `ProcessedItem` through the `new` / `duplicate` / `updated`
branches (with `action` `send_to_pixel`, `skip`, `send_to_pixel`
respectively). -/
def processItem (records : List ExistingRecord) (item : RawItem) : ProcessedItem :=
  match findExisting records item with
  | none =>
    { item := item, status := Status.new, action := Action.send_to_pixel, existing := none }
  | some existing =>
    if jsNumEq (toNumber existing.amount) (toNumber item.amount) &&
       jsNumEq (toNumber existing.commission_amount) (toNumber item.commission_amount) then
      { item := item, status := Status.duplicate, action := Action.skip,
        existing := some existing }
    else
      { item := item, status := Status.updated, action := Action.send_to_pixel,
        existing := some existing }

/-- The classification loop over all validated events, in input order. -/
def processItemsOf (records : List ExistingRecord) (items : List RawItem) : List ProcessedItem :=
  items.map (processItem records)

/-- The transmission set: `processedItems.filter(p => p.action === 'send_to_pixel')`. -/
def toSendOf (records : List ExistingRecord) (items : List RawItem) : List ProcessedItem :=
  (processItemsOf records items).filter fun p => decide (p.action = Action.send_to_pixel)

/-- The data carried by the `NodeOperationError` thrown by the validation
loop: the zero-based index of the offending event (`itemIndex: i`) and the
field names listed in the message after `Expected:`. -/
structure ValidationError where
  itemIndex : ℕ
  expected : List String
deriving DecidableEq

/-- The field names listed in the validation error message. -/
def expectedFieldsMsg : List String :=
  ["date", "token", "event", "trx_id", "io_id", "commission_amount", "amount",
   "currency", "parent_api_call"]

/-- The per-item validation test
`!item.date || !item.token || !item.event || !item.trx_id || !item.io_id`. -/
def missingRequired (item : RawItem) : Bool :=
  !truthy item.date || !truthy item.token || !truthy item.event ||
  !truthy item.trx_id || !truthy item.io_id

/-- The validation loop from index `k`: fails on the first offending event,
otherwise passes every event through unchanged (the `inputItems.push` copies
each field with a bare cast — no conversion, no defaulting). -/
def validateFrom (k : ℕ) : List RawItem → Except ValidationError (List RawItem)
  | [] => Except.ok []
  | item :: rest =>
    if missingRequired item then Except.error ⟨k, expectedFieldsMsg⟩
    else (validateFrom (k + 1) rest).map (item :: ·)

/-- Validation of the whole input batch (all-or-nothing, before any I/O). -/
def validateItems (items : List RawItem) : Except ValidationError (List RawItem) :=
  validateFrom 0 items

/-- What the send capability produces for one outbound call: a parsed
response object `{status, error?}`, or a transport-level exception whose
`message` may be absent/falsy (`none`). -/
inductive SendResult where
  | response (status : String) (error : Option String)
  | exn (message : Option String)
deriving DecidableEq

/-- Recording of one send outcome on its event: `result.status === 'OK'`
sets `pixelStatus = 'OK'`; otherwise `pixelStatus = 'ERROR'` with
`pixelError = result.error || 'Unknown error'`; a caught exception sets
`pixelStatus = 'ERROR'` with `pixelError = error.message || 'Request failed'`. -/
def applySend (p : ProcessedItem) : SendResult → ProcessedItem
  | SendResult.response st err =>
    if st = "OK" then { p with pixelStatus := some PixelStatus.OK }
    else { p with pixelStatus := some PixelStatus.ERROR,
                  pixelError := some (err.getD "Unknown error") }
  | SendResult.exn msg =>
    { p with pixelStatus := some PixelStatus.ERROR,
             pixelError := some (msg.getD "Request failed") }

/-- The dispatch loop body, one event after another in order, each event
receiving exactly one send whose outcome is given by the oracle at the
event's position. -/
def dispatchList (oracle : ℕ → SendResult) : ℕ → List ProcessedItem → List ProcessedItem
  | _, [] => []
  | i, p :: rest => applySend p (oracle i) :: dispatchList oracle (i + 1) rest

/-- Step 2 of the pipeline (`if (!dryRun && toSend.length > 0) { for ... }`):
returns the transmission set with outcomes recorded, together with the number
of calls made to the send capability (one `httpRequest` per loop iteration). -/
def dispatchStep (dryRun : Bool) (oracle : ℕ → SendResult) (toSend : List ProcessedItem) :
    List ProcessedItem × ℕ :=
  if !dryRun && decide (0 < toSend.length) then
    (dispatchList oracle 0 toSend, toSend.length)
  else
    (toSend, 0)

/-- The `NOW()` timestamp literal used by both SQL statements. -/
inductive DbTime where
  | now
deriving DecidableEq

/-- One row of the batched `INSERT INTO scraper_tokens (trx_id, amount,
commission_amount, stream, created_at) VALUES (?, ?, ?, ?, NOW())`. -/
structure InsertRow where
  trx_id : JsVal
  amount : JsVal
  commission_amount : JsVal
  stream : String
  created_at : DbTime
deriving DecidableEq

/-- One `UPDATE scraper_tokens SET amount = ?, commission_amount = ?,
created_at = NOW() WHERE trx_id = ?` statement: the SET clause carries only
these three columns, so the identifier is structurally never altered. -/
structure UpdateOp where
  set_amount : JsVal
  set_commission_amount : JsVal
  set_created_at : DbTime
  where_trx_id : JsVal
deriving DecidableEq

/-- The insert row built from a successful `new` event. -/
def mkInsertRow (p : ProcessedItem) : InsertRow :=
  { trx_id := p.item.trx_id, amount := p.item.amount,
    commission_amount := p.item.commission_amount, stream := "scraper",
    created_at := DbTime.now }

/-- The update statement built from a successful `updated` event. -/
def mkUpdateOp (p : ProcessedItem) : UpdateOp :=
  { set_amount := p.item.amount, set_commission_amount := p.item.commission_amount,
    set_created_at := DbTime.now, where_trx_id := p.item.trx_id }

/-- Step 3 of the pipeline (`if (!dryRun && connection && toSend.length > 0)`):
the mutation plan computed from dispatch outcomes — at most one batched
insert operation (`none` when no insert statement is issued) and a list of
single-row update statements, in order. -/
def dbWriteStep (dryRun : Bool) (hasConnection : Bool) (sent : List ProcessedItem) :
    Option (List InsertRow) × List UpdateOp :=
  if !dryRun && hasConnection && decide (0 < sent.length) then
    let successfulSends := sent.filter fun p => decide (p.pixelStatus = some PixelStatus.OK)
    if decide (0 < successfulSends.length) then
      let newToInsert := successfulSends.filter fun p => decide (p.status = Status.new)
      let existingToUpdate := successfulSends.filter fun p => decide (p.status = Status.updated)
      ((if decide (0 < newToInsert.length) then some (newToInsert.map mkInsertRow) else none),
       existingToUpdate.map mkUpdateOp)
    else (none, [])
  else (none, [])

/-- The summary block of the normal output. Mode-dependent fields are
`Option`s: `none` models a field absent from the object. -/
structure Summary where
  total_input : ℕ
  new_items : ℕ
  exact_duplicates : ℕ
  updated_items : ℕ
  would_send_to_pixel : Option ℕ := none
  status : Option String := none
  sent_to_pixel : Option ℕ := none
  pixel_success : Option ℕ := none
  pixel_failed : Option ℕ := none
  db_inserted : Option ℕ := none
  db_updated : Option ℕ := none
deriving DecidableEq

/-- The observable outcome of a normally-terminating invocation: the
classified items, the dispatched transmission set, how many times the lookup
and send capabilities were invoked, the mutation plan and the summary. -/
structure RunResult where
  processedItems : List ProcessedItem
  toSend : List ProcessedItem
  lookupCalls : ℕ
  sendCalls : ℕ
  inserts : Option (List InsertRow)
  updates : List UpdateOp
  summary : Summary
deriving DecidableEq

/-- Number of calls made to the mutation capability: one batched INSERT
statement when present, plus one UPDATE statement per update op. -/
def mutationCallCount (r : RunResult) : ℕ :=
  (match r.inserts with
   | some _ => 1
   | none => 0) + r.updates.length

/-- The body of the `try` block after the lookup: classification, dispatch,
database writes and summary assembly. `existingRecords` is `[]` and
`lookupCalls` is `0` when `skipDedup` is set (the lookup branch is skipped
and no connection is opened); otherwise the single batched lookup's rows
and `1`. -/
def runTry (dryRun skipDedup : Bool) (inputItems : List RawItem)
    (existingRecords : List ExistingRecord) (lookupCalls : ℕ)
    (oracle : ℕ → SendResult) : RunResult :=
  let processedItems := processItemsOf existingRecords inputItems
  let newItems := processedItems.filter fun p => decide (p.status = Status.new)
  let duplicates := processedItems.filter fun p => decide (p.status = Status.duplicate)
  let updatedItems := processedItems.filter fun p => decide (p.status = Status.updated)
  let toSend := processedItems.filter fun p => decide (p.action = Action.send_to_pixel)
  let sentPair := dispatchStep dryRun oracle toSend
  let sent := sentPair.1
  let pixelSuccess := (sent.filter fun p => decide (p.pixelStatus = some PixelStatus.OK)).length
  let pixelFailed := (sent.filter fun p => decide (p.pixelStatus = some PixelStatus.ERROR)).length
  let writes := dbWriteStep dryRun (!skipDedup) sent
  let dbInserted := ((writes.1).getD []).length
  let dbUpdated := (writes.2).length
  let base : Summary :=
    { total_input := inputItems.length, new_items := newItems.length,
      exact_duplicates := duplicates.length, updated_items := updatedItems.length }
  let summary :=
    if dryRun then
      { base with would_send_to_pixel := some toSend.length,
                  status := some "DRY_RUN_SKIPPED" }
    else
      { base with sent_to_pixel := some toSend.length,
                  pixel_success := some pixelSuccess, pixel_failed := some pixelFailed,
                  db_inserted := some dbInserted, db_updated := some dbUpdated }
  { processedItems := processedItems, toSend := sent, lookupCalls := lookupCalls,
    sendCalls := sentPair.2, inserts := writes.1, updates := writes.2, summary := summary }

/-- A JS error value as seen by the `catch` block: optional `code` property
and `message`. -/
structure JsError where
  code : Option String
  message : String
deriving DecidableEq

/-- The error-shaped output built in the `catch` block: `success: false`,
`error{code, message, stage}` and the reduced summary
`{total_input, processed: 0}`. The `stage` field is the literal written at
that line of the source. -/
structure ErrorOutput where
  success : Bool
  code : String
  message : String
  stage : String
  total_input : ℕ
  processed : ℕ
deriving DecidableEq

/-- The `catch` block: `code: error.code || 'UNKNOWN_ERROR'`,
`stage: 'execution'`, `summary: {total_input: items.length, processed: 0}`. -/
def errorOutput (totalInput : ℕ) (e : JsError) : ErrorOutput :=
  { success := false, code := e.code.getD "UNKNOWN_ERROR", message := e.message,
    stage := "execution", total_input := totalInput, processed := 0 }

/-- The three ways an invocation can terminate: a validation throw (raised
before the `try` block), the `catch`-block error output, or a normal result. -/
inductive ExecResult where
  | validationFailure (e : ValidationError)
  | fatal (e : ErrorOutput)
  | success (r : RunResult)
deriving DecidableEq

/-- The whole `execute` pipeline: validate, then (unless `skipDedup`) perform
the single batched lookup — whose failure lands in the `catch` block — then
classify, dispatch and plan mutations. -/
def execute (dryRun skipDedup : Bool) (rawItems : List RawItem)
    (lookupResult : Except JsError (List ExistingRecord))
    (oracle : ℕ → SendResult) : ExecResult :=
  match validateItems rawItems with
  | Except.error e => ExecResult.validationFailure e
  | Except.ok inputItems =>
    if skipDedup then
      ExecResult.success (runTry dryRun skipDedup inputItems [] 0 oracle)
    else
      match lookupResult with
      | Except.error e => ExecResult.fatal (errorOutput rawItems.length e)
      | Except.ok recs => ExecResult.success (runTry dryRun skipDedup inputItems recs 1 oracle)

/-- The extracted sub-token embedded in the nested `parent_api_call` JSON
string of the outbound payload:
`parent.includes('fico') ? parent.substring(parent.indexOf('fico:') + 5) : null`. -/
def ficoExtract (parent : String) : Option String :=
  if jsIncludes parent "fico" then
    some (jsSubstringFrom parent (jsIndexOf parent "fico:" + 5))
  else none

instance {ε α : Type} [DecidableEq ε] [DecidableEq α] : DecidableEq (Except ε α) := fun a b =>
  match a, b with
  | Except.error e, Except.error f =>
    if h : e = f then isTrue (by rw [h]) else isFalse (fun hh => h ((Except.error.injEq _ _).mp hh))
  | Except.ok x, Except.ok y =>
    if h : x = y then isTrue (by rw [h]) else isFalse (fun hh => h ((Except.ok.injEq _ _).mp hh))
  | Except.error _, Except.ok _ => isFalse (fun hh => Except.noConfusion hh)
  | Except.ok _, Except.error _ => isFalse (fun hh => Except.noConfusion hh)

def itemAmt100 : RawItem :=
  { date := JsVal.vstr "2025-01-01", token := JsVal.vstr "tok", event := JsVal.vstr "Sale",
    trx_id := JsVal.vstr "trx-100", io_id := JsVal.vstr "io-1",
    commission_amount := JsVal.vnum 5, amount := JsVal.vnum 100,
    currency := JsVal.vstr "USD", parent_api_call := JsVal.vstr "Empty" }

def recDec100 : ExistingRecord :=
  { trx_id := JsVal.vstr "trx-100", amount := JsVal.vstr "100.00",
    commission_amount := JsVal.vstr "5.00", created_at := "2024-06-01T00:00:00.000Z" }

def oracleOK : ℕ → SendResult := fun _ => SendResult.response "OK" none

def itemMissingToken : RawItem := { itemAmt100 with token := JsVal.vstr "" }

def itemNoCommission : RawItem := { itemAmt100 with commission_amount := JsVal.vundef }

def recZeroCommission : ExistingRecord :=
  { trx_id := JsVal.vstr "trx-100", amount := JsVal.vnum 100,
    commission_amount := JsVal.vnum 0, created_at := "2024-06-01T00:00:00.000Z" }

def pOKnew : ProcessedItem :=
  { item := itemAmt100, status := Status.new, action := Action.send_to_pixel,
    existing := none, pixelStatus := some PixelStatus.OK, pixelError := none }

def pERRupd : ProcessedItem :=
  { item := { itemAmt100 with trx_id := JsVal.vstr "trx-e" }, status := Status.updated,
    action := Action.send_to_pixel, existing := some recDec100,
    pixelStatus := some PixelStatus.ERROR, pixelError := some "Invalid io_id" }

def pOKupd : ProcessedItem :=
  { item := { itemAmt100 with trx_id := JsVal.vstr "trx-u", amount := JsVal.vnum 550 },
    status := Status.updated, action := Action.send_to_pixel, existing := some recDec100,
    pixelStatus := some PixelStatus.OK, pixelError := none }

def lookupFailure : JsError :=
  { code := some "MYSQL_CONNECTION_ERROR", message := "Failed to connect to MySQL" }

def itemNaN : RawItem := { itemAmt100 with amount := JsVal.vundef, trx_id := JsVal.vstr "trx-n" }

def recNonNum : ExistingRecord :=
  { trx_id := JsVal.vstr "trx-n", amount := JsVal.vstr "abc",
    commission_amount := JsVal.vnum 5, created_at := "2024-06-01T00:00:00.000Z" }

theorem processItem_item (records : List ExistingRecord) (item : RawItem) :
    (processItem records item).item = item := by
  unfold processItem
  cases findExisting records item with
  | none => rfl
  | some ex => by_cases h : (jsNumEq (toNumber ex.amount) (toNumber item.amount) &&
      jsNumEq (toNumber ex.commission_amount) (toNumber item.commission_amount)) = true <;>
      simp [h]

theorem processItem_status (records : List ExistingRecord) (item : RawItem) :
    (processItem records item).status = classify item (findExisting records item) := by
  unfold processItem classify
  cases findExisting records item with
  | none => rfl
  | some ex => by_cases h : (jsNumEq (toNumber ex.amount) (toNumber item.amount) &&
      jsNumEq (toNumber ex.commission_amount) (toNumber item.commission_amount)) = true <;>
      simp [h]

theorem processItem_action_iff (records : List ExistingRecord) (item : RawItem) :
    (processItem records item).action = Action.send_to_pixel ↔
      (processItem records item).status = Status.new ∨
      (processItem records item).status = Status.updated := by
  unfold processItem
  cases findExisting records item with
  | none => simp
  | some ex => by_cases h : (jsNumEq (toNumber ex.amount) (toNumber item.amount) &&
      jsNumEq (toNumber ex.commission_amount) (toNumber item.commission_amount)) = true <;>
      simp [h]

theorem classify_some_iff (item : RawItem) (ex : ExistingRecord) :
    classify item (some ex) = Status.duplicate ↔
      (jsNumEq (toNumber ex.amount) (toNumber item.amount) = true ∧
       jsNumEq (toNumber ex.commission_amount) (toNumber item.commission_amount) = true) := by
  unfold classify
  by_cases h : (jsNumEq (toNumber ex.amount) (toNumber item.amount) &&
      jsNumEq (toNumber ex.commission_amount) (toNumber item.commission_amount)) = true
  · simp only [h, if_true]
    simp only [Bool.and_eq_true] at h
    simp [h]
  · simp only [h, if_false]
    constructor
    · intro hh; cases hh
    · intro hh
      exact absurd (by simp [Bool.and_eq_true, hh.1, hh.2]) h

theorem classify_some_cases (item : RawItem) (ex : ExistingRecord) :
    classify item (some ex) = Status.duplicate ∨ classify item (some ex) = Status.updated := by
  unfold classify
  by_cases h : (jsNumEq (toNumber ex.amount) (toNumber item.amount) &&
      jsNumEq (toNumber ex.commission_amount) (toNumber item.commission_amount)) = true <;>
    simp [h]

theorem applySend_status (p : ProcessedItem) (r : SendResult) :
    (applySend p r).status = p.status := by
  cases r with
  | response st err => by_cases h : st = "OK" <;> simp [applySend, h]
  | exn msg => simp [applySend]

theorem applySend_item (p : ProcessedItem) (r : SendResult) :
    (applySend p r).item = p.item := by
  cases r with
  | response st err => by_cases h : st = "OK" <;> simp [applySend, h]
  | exn msg => simp [applySend]

theorem mem_dispatchList (oracle : ℕ → SendResult) (i : ℕ) (l : List ProcessedItem)
    (p : ProcessedItem) (hp : p ∈ dispatchList oracle i l) :
    ∃ q ∈ l, ∃ k, p = applySend q (oracle k) := by
  induction l generalizing i with
  | nil => cases hp
  | cons a t ih =>
    simp only [dispatchList, List.mem_cons] at hp
    cases hp with
    | inl h => exact ⟨a, List.mem_cons_self a t, i, h⟩
    | inr h =>
      obtain ⟨q, hq, k, hk⟩ := ih (i + 1) h
      exact ⟨q, List.mem_cons_of_mem a hq, k, hk⟩

theorem length_filter_or (l : List ProcessedItem) (p q : ProcessedItem → Bool)
    (h : ∀ a ∈ l, ¬(p a = true ∧ q a = true)) :
    (l.filter fun a => p a || q a).length = (l.filter p).length + (l.filter q).length := by
  induction l with
  | nil => rfl
  | cons a t ih =>
    have ht : ∀ b ∈ t, ¬(p b = true ∧ q b = true) := fun b hb => h b (List.mem_cons_of_mem a hb)
    have ha := h a (List.mem_cons_self a t)
    by_cases hp : p a = true
    · have hq : q a = false := by
        cases hqq : q a with
        | false => rfl
        | true => exact absurd ⟨hp, hqq⟩ ha
      simp only [List.filter_cons, hp, hq, Bool.true_or, Bool.false_eq_true, if_true, if_false, List.length_cons]
      rw [ih ht]
      omega
    · have hp' : p a = false := by
        cases hpp : p a with
        | false => rfl
        | true => exact absurd hpp hp
      by_cases hq : q a = true
      · simp only [List.filter_cons, hp', hq, Bool.false_or, Bool.false_eq_true, if_true, if_false, List.length_cons]
        rw [ih ht]
        omega
      · have hq' : q a = false := by
          cases hqq : q a with
          | false => rfl
          | true => exact absurd hqq hq
        simp only [List.filter_cons, hp', hq', Bool.false_or, Bool.false_eq_true, if_false]
        exact ih ht

theorem map_item_processItems (records : List ExistingRecord) (items : List RawItem) :
    (processItemsOf records items).map ProcessedItem.item = items := by
  induction items with
  | nil => rfl
  | cons a t ih =>
    simp only [processItemsOf, List.map_cons] at ih ⊢
    rw [processItem_item, ih]

theorem dbWriteStep_normal (sent : List ProcessedItem) :
    dbWriteStep false true sent
      = ((if decide (0 < ((sent.filter fun p => decide (p.pixelStatus = some PixelStatus.OK) &&
              decide (p.status = Status.new)).map mkInsertRow).length) then
            some ((sent.filter fun p => decide (p.pixelStatus = some PixelStatus.OK) &&
              decide (p.status = Status.new)).map mkInsertRow) else none),
          (sent.filter fun p => decide (p.pixelStatus = some PixelStatus.OK) &&
            decide (p.status = Status.updated)).map mkUpdateOp) := by
  have hnew : ((sent.filter fun p => decide (p.pixelStatus = some PixelStatus.OK)).filter
      fun p => decide (p.status = Status.new))
      = sent.filter fun p => decide (p.pixelStatus = some PixelStatus.OK) &&
          decide (p.status = Status.new) := by
    rw [List.filter_filter]
    exact List.filter_congr fun a _ => Bool.and_comm _ _
  have hupd : ((sent.filter fun p => decide (p.pixelStatus = some PixelStatus.OK)).filter
      fun p => decide (p.status = Status.updated))
      = sent.filter fun p => decide (p.pixelStatus = some PixelStatus.OK) &&
          decide (p.status = Status.updated) := by
    rw [List.filter_filter]
    exact List.filter_congr fun a _ => Bool.and_comm _ _
  unfold dbWriteStep
  by_cases h0 : 0 < sent.length
  · simp only [Bool.not_false, Bool.true_and, h0, decide_True, if_true]
    by_cases h1 :
        0 < (sent.filter fun p => decide (p.pixelStatus = some PixelStatus.OK)).length
    · simp only [h1, decide_True, if_true, hnew, hupd, List.length_map]
    · have hz : (sent.filter fun p => decide (p.pixelStatus = some PixelStatus.OK)) = [] :=
        List.length_eq_zero.mp (Nat.eq_zero_of_not_pos h1)
      have hz2 : (sent.filter fun p => decide (p.pixelStatus = some PixelStatus.OK) &&
          decide (p.status = Status.new)) = [] := by
        rw [← hnew, hz]
        rfl
      have hz3 : (sent.filter fun p => decide (p.pixelStatus = some PixelStatus.OK) &&
          decide (p.status = Status.updated)) = [] := by
        rw [← hupd, hz]
        rfl
      simp [h1, hz2, hz3]
  · have hs : sent = [] := List.length_eq_zero.mp (Nat.eq_zero_of_not_pos h0)
    subst hs
    simp [dbWriteStep]

theorem filter_success_absorb (sent : List ProcessedItem) (st : Status) :
    ((sent.filter fun p => decide (p.pixelStatus = some PixelStatus.OK)).filter
        fun p => decide (p.pixelStatus = some PixelStatus.OK) && decide (p.status = st))
      = sent.filter fun p => decide (p.pixelStatus = some PixelStatus.OK) &&
          decide (p.status = st) := by
  rw [List.filter_filter]
  apply List.filter_congr
  intro a _
  cases hs : decide (a.pixelStatus = some PixelStatus.OK) <;>
    cases ht : decide (a.status = st) <;> rfl

theorem validateFrom_error_spec (items : List RawItem) (k : ℕ) (e : ValidationError)
    (h : validateFrom k items = Except.error e) :
    e.expected = expectedFieldsMsg ∧ k ≤ e.itemIndex ∧
    (∃ it, items[e.itemIndex - k]? = some it ∧ missingRequired it = true) ∧
    (∀ j it2, j < e.itemIndex - k → items[j]? = some it2 → missingRequired it2 = false) := by
  induction items generalizing k with
  | nil => exact Except.noConfusion h
  | cons item rest ih =>
    unfold validateFrom at h
    by_cases hm : missingRequired item = true
    · rw [if_pos hm] at h
      have he : e = ⟨k, expectedFieldsMsg⟩ := (Except.error.injEq _ _).mp h.symm
      subst he
      refine ⟨rfl, Nat.le_refl k, ⟨item, ?_, hm⟩, ?_⟩
      · simp
      · intro j it2 hj
        simp at hj
    · rw [if_neg hm] at h
      cases hrec : validateFrom (k + 1) rest with
      | ok v => rw [hrec] at h; exact Except.noConfusion h
      | error e' =>
        rw [hrec] at h
        have he : e' = e := (Except.error.injEq _ _).mp h
        rw [he] at hrec
        obtain ⟨h1, h2, ⟨it, hit, hitm⟩, h4⟩ := ih (k + 1) hrec
        have hk : k ≤ e.itemIndex := Nat.le_of_succ_le h2
        have hsub : e.itemIndex - k = (e.itemIndex - (k + 1)) + 1 := by omega
        refine ⟨h1, hk, ⟨it, ?_, hitm⟩, ?_⟩
        · rw [hsub, List.getElem?_cons_succ]
          exact hit
        · intro j it2 hj hget
          rw [hsub] at hj
          cases j with
          | zero =>
            rw [List.getElem?_cons_zero] at hget
            cases hget
            exact Bool.eq_false_iff.mpr hm
          | succ j' =>
            rw [List.getElem?_cons_succ] at hget
            exact h4 j' it2 (by omega) hget

theorem validateFrom_ok_id (items : List RawItem) (k : ℕ) (res : List RawItem)
    (h : validateFrom k items = Except.ok res) : res = items := by
  induction items generalizing k res with
  | nil =>
    have : res = [] := (Except.ok.injEq _ _).mp h.symm
    rw [this]
  | cons item rest ih =>
    unfold validateFrom at h
    by_cases hm : missingRequired item = true
    · rw [if_pos hm] at h
      exact Except.noConfusion h
    · rw [if_neg hm] at h
      cases hrec : validateFrom (k + 1) rest with
      | ok v =>
        rw [hrec] at h
        have : item :: v = res := (Except.ok.injEq _ _).mp h
        rw [← this, ih (k + 1) v hrec]
      | error e' => rw [hrec] at h; exact Except.noConfusion h

theorem dispatchList_length (oracle : ℕ → SendResult) (i : ℕ) (l : List ProcessedItem) :
    (dispatchList oracle i l).length = l.length := by
  induction l generalizing i with
  | nil => rfl
  | cons a t ih => simp [dispatchList, ih]

theorem dispatchList_getElem (oracle : ℕ → SendResult) (i : ℕ) (l : List ProcessedItem)
    (j : ℕ) :
    (dispatchList oracle i l)[j]? = (l[j]?).map fun p => applySend p (oracle (i + j)) := by
  induction l generalizing i j with
  | nil => rfl
  | cons a t ih =>
    cases j with
    | zero => simp [dispatchList]
    | succ j' =>
      simp only [dispatchList, List.getElem?_cons_succ, ih (i + 1) j']
      have : i + 1 + j' = i + (j' + 1) := by omega
      rw [this]

theorem matchesAt_iff (pat s : List Char) :
    matchesAt pat s = true ↔ ∃ t, s = pat ++ t := by
  induction pat generalizing s with
  | nil =>
    simp only [matchesAt, List.nil_append]
    exact ⟨fun _ => ⟨s, rfl⟩, fun _ => trivial⟩
  | cons c cs ih =>
    cases s with
    | nil =>
      simp only [matchesAt]
      constructor
      · intro h; cases h
      · rintro ⟨t, ht⟩; cases ht
    | cons d ds =>
      simp only [matchesAt, Bool.and_eq_true]
      constructor
      · rintro ⟨h1, h2⟩
        obtain ⟨t, ht⟩ := (ih ds).mp h2
        exact ⟨t, by rw [ht, eq_of_beq h1]; rfl⟩
      · rintro ⟨t, ht⟩
        rw [List.cons_append] at ht
        injection ht with h1 h2
        exact ⟨by rw [h1]; exact beq_self_eq_true c, (ih ds).mpr ⟨t, h2⟩⟩

theorem firstMatchIdx_some_spec (pat : List Char) (s : List Char) (i : ℕ)
    (h : firstMatchIdx pat s = some i) :
    i ≤ s.length ∧ ∃ t, s.drop i = pat ++ t := by
  induction s generalizing i with
  | nil =>
    unfold firstMatchIdx at h
    by_cases hm : matchesAt pat [] = true
    · rw [if_pos hm] at h
      have hi : i = 0 := ((Option.some.injEq _ _).mp h).symm
      subst hi
      exact ⟨Nat.zero_le 0, (matchesAt_iff pat []).mp hm⟩
    · rw [if_neg hm] at h
      exact Option.noConfusion h
  | cons c rest ih =>
    unfold firstMatchIdx at h
    by_cases hm : matchesAt pat (c :: rest) = true
    · rw [if_pos hm] at h
      have hi : i = 0 := ((Option.some.injEq _ _).mp h).symm
      subst hi
      exact ⟨Nat.zero_le _, (matchesAt_iff pat (c :: rest)).mp hm⟩
    · rw [if_neg hm] at h
      obtain ⟨i', hi', hmap⟩ := Option.map_eq_some'.mp h
      obtain ⟨hle, t, ht⟩ := ih i' hi'
      refine ⟨?_, ⟨t, ?_⟩⟩
      · rw [← hmap]
        exact Nat.succ_le_succ hle
      · rw [← hmap]
        simpa using ht

theorem firstMatchIdx_min (pat : List Char) (pre post : List Char) :
    ∀ s : List Char, s = pre ++ pat ++ post →
    ∃ i, firstMatchIdx pat s = some i ∧ i ≤ pre.length := by
  induction pre with
  | nil =>
    intro s hs
    rw [List.nil_append] at hs
    have hm : matchesAt pat s = true := (matchesAt_iff pat s).mpr ⟨post, hs⟩
    cases s with
    | nil => exact ⟨0, by unfold firstMatchIdx; rw [if_pos hm], Nat.le_refl 0⟩
    | cons c rest => exact ⟨0, by unfold firstMatchIdx; rw [if_pos hm], Nat.zero_le _⟩
  | cons c pre' ih =>
    intro s hs
    have hs' : s = c :: (pre' ++ pat ++ post) := by
      rw [hs]
      rfl
    subst hs'
    unfold firstMatchIdx
    by_cases hm : matchesAt pat (c :: (pre' ++ pat ++ post)) = true
    · exact ⟨0, by rw [if_pos hm], Nat.zero_le _⟩
    · obtain ⟨i', hi', hle⟩ := ih (pre' ++ pat ++ post) rfl
      refine ⟨i' + 1, ?_, Nat.succ_le_succ hle⟩
      rw [if_neg hm, hi']
      rfl

/-- C1: classification is a pure function of the event and the optional
matching record: `new` iff no record, `duplicate` iff both amount and
commission are numerically equal under JS `Number()` coercion (tolerant of
representation, e.g. the number `100` equals the decimal string `"100.00"`),
`updated` otherwise; no other field of the event or record influences the
result. -/
theorem classification_pure_numeric (item : RawItem) (ex : ExistingRecord) :
    classify item none = Status.new
    ∧ (classify item (some ex) = Status.duplicate ↔
        (jsNumEq (toNumber ex.amount) (toNumber item.amount) = true ∧
         jsNumEq (toNumber ex.commission_amount) (toNumber item.commission_amount) = true))
    ∧ (classify item (some ex) = Status.updated ↔
        ¬(jsNumEq (toNumber ex.amount) (toNumber item.amount) = true ∧
          jsNumEq (toNumber ex.commission_amount) (toNumber item.commission_amount) = true))
    ∧ (∀ item2 ex2, item2.amount = item.amount → item2.commission_amount = item.commission_amount →
        ex2.amount = ex.amount → ex2.commission_amount = ex.commission_amount →
        classify item2 (some ex2) = classify item (some ex))
    ∧ jsNumEq (toNumber (JsVal.vnum 100)) (toNumber (JsVal.vstr "100.00")) = true := by
  refine ⟨rfl, classify_some_iff item ex, ?_, ?_, by decide⟩
  · constructor
    · intro h hd
      rw [(classify_some_iff item ex).mpr hd] at h
      cases h
    · intro h
      rcases classify_some_cases item ex with hc | hc
      · exact absurd ((classify_some_iff item ex).mp hc) h
      · exact hc
  · intro item2 ex2 h1 h2 h3 h4
    simp only [classify, h1, h2, h3, h4]

/-- C1 witness: a concrete event with integer amounts and a stored record
with decimal-string amounts classify as `duplicate`. -/
theorem classification_pure_numeric_witness :
    classify itemAmt100 (some recDec100) = Status.duplicate :=
  (classification_pure_numeric itemAmt100 recDec100).2.1.mpr ⟨by decide, by decide⟩

/-- C2: the transmission set is exactly the events classified `new` or
`updated`, kept in original input order (a sublist of the classified list,
which itself maps one-to-one onto the input); its size is
count(new) + count(updated); and no `duplicate` event is ever in it, nor in
the dispatched list. -/
theorem transmission_set_spec (records : List ExistingRecord) (items : List RawItem)
    (d : Bool) (oracle : ℕ → SendResult) :
    toSendOf records items
      = (processItemsOf records items).filter
          (fun p => decide (p.status = Status.new) || decide (p.status = Status.updated))
    ∧ (toSendOf records items).length
        = ((processItemsOf records items).filter fun p => decide (p.status = Status.new)).length
          + ((processItemsOf records items).filter fun p => decide (p.status = Status.updated)).length
    ∧ (toSendOf records items).Sublist (processItemsOf records items)
    ∧ (processItemsOf records items).map ProcessedItem.item = items
    ∧ (∀ p, p ∈ toSendOf records items → ¬ p.status = Status.duplicate)
    ∧ (∀ p, p ∈ (dispatchStep d oracle (toSendOf records items)).1 →
        ¬ p.status = Status.duplicate) := by
  have hcongr : toSendOf records items
      = (processItemsOf records items).filter
          (fun p => decide (p.status = Status.new) || decide (p.status = Status.updated)) := by
    unfold toSendOf
    apply List.filter_congr
    intro p hp
    obtain ⟨it, -, rfl⟩ := List.mem_map.mp hp
    by_cases hb : (processItem records it).action = Action.send_to_pixel
    · rcases (processItem_action_iff records it).mp hb with h1 | h1 <;> simp [hb, h1]
    · have hnd : ¬((processItem records it).status = Status.new ∨
          (processItem records it).status = Status.updated) :=
        fun c => hb ((processItem_action_iff records it).mpr c)
      push_neg at hnd
      simp [hb, hnd.1, hnd.2]
  have hdup : ∀ p, p ∈ toSendOf records items → ¬ p.status = Status.duplicate := by
    intro p hp hd
    rw [hcongr] at hp
    rcases (List.mem_filter.mp hp).2 with h
    rw [hd] at h
    simp at h
  refine ⟨hcongr, ?_, ?_, map_item_processItems records items, hdup, ?_⟩
  · rw [hcongr]
    apply length_filter_or
    intro a _ hcontra
    have h1 : a.status = Status.new := of_decide_eq_true hcontra.1
    have h2 : a.status = Status.updated := of_decide_eq_true hcontra.2
    rw [h1] at h2
    cases h2
  · unfold toSendOf
    exact List.filter_sublist _
  · intro p hp
    unfold dispatchStep at hp
    by_cases hg : (!d && decide (0 < (toSendOf records items).length)) = true
    · rw [if_pos hg] at hp
      obtain ⟨q, hq, k, hk⟩ := mem_dispatchList oracle 0 (toSendOf records items) p hp
      rw [hk]
      rw [applySend_status]
      exact hdup q hq
    · rw [if_neg hg] at hp
      exact hdup p hp

/-- C2 witness: on a concrete input the classified list maps back onto the
input events. -/
theorem transmission_set_spec_witness :
    (processItemsOf [recDec100] [itemAmt100]).map ProcessedItem.item = [itemAmt100] :=
  (transmission_set_spec [recDec100] [itemAmt100] false (fun _ => SendResult.response "OK" none)).2.2.2.1

/-- C3: the mutation plan contains a mutation exactly for the successfully
sent events: failures and never-sent events contribute nothing (restricting
the input to the successes leaves the plan unchanged); the successful `new`
events form the rows of the single batched insert (identifier, amount,
commission, the fixed `"scraper"` tag, `NOW()`); each successful `updated`
event becomes one update matched by its identifier that sets only amount,
commission and the `NOW()` timestamp, so in particular `duplicate` events
never produce a mutation. -/
theorem mutation_planner_spec (sent : List ProcessedItem) :
    (dbWriteStep false true sent
      = ((if decide (0 < ((sent.filter fun p => decide (p.pixelStatus = some PixelStatus.OK) &&
              decide (p.status = Status.new)).map mkInsertRow).length) then
            some ((sent.filter fun p => decide (p.pixelStatus = some PixelStatus.OK) &&
              decide (p.status = Status.new)).map mkInsertRow) else none),
          (sent.filter fun p => decide (p.pixelStatus = some PixelStatus.OK) &&
            decide (p.status = Status.updated)).map mkUpdateOp))
    ∧ dbWriteStep false true sent
        = dbWriteStep false true (sent.filter fun p => decide (p.pixelStatus = some PixelStatus.OK))
    ∧ (∀ u, u ∈ (dbWriteStep false true sent).2 →
        ∃ p, p ∈ sent ∧ p.pixelStatus = some PixelStatus.OK ∧ p.status = Status.updated
          ∧ u.where_trx_id = p.item.trx_id ∧ u.set_amount = p.item.amount
          ∧ u.set_commission_amount = p.item.commission_amount ∧ u.set_created_at = DbTime.now)
    ∧ (∀ rows r, (dbWriteStep false true sent).1 = some rows → r ∈ rows →
        ∃ p, p ∈ sent ∧ p.pixelStatus = some PixelStatus.OK ∧ p.status = Status.new
          ∧ r = mkInsertRow p ∧ r.stream = "scraper" ∧ r.created_at = DbTime.now) := by
  refine ⟨dbWriteStep_normal sent, ?_, ?_, ?_⟩
  · rw [dbWriteStep_normal sent, dbWriteStep_normal
      (sent.filter fun p => decide (p.pixelStatus = some PixelStatus.OK)),
      filter_success_absorb sent Status.new, filter_success_absorb sent Status.updated]
  · intro u hu
    rw [dbWriteStep_normal sent] at hu
    simp only [List.mem_map] at hu
    obtain ⟨p, hp, hmk⟩ := hu
    have hmem := List.mem_filter.mp hp
    have hok : p.pixelStatus = some PixelStatus.OK :=
      of_decide_eq_true (Bool.and_elim_left hmem.2)
    have hst : p.status = Status.updated :=
      of_decide_eq_true (Bool.and_elim_right hmem.2)
    cases hmk
    exact ⟨p, hmem.1, hok, hst, rfl, rfl, rfl, rfl⟩
  · intro rows r hrows hr
    rw [dbWriteStep_normal sent] at hrows
    by_cases hlen : decide (0 < ((sent.filter fun p =>
        decide (p.pixelStatus = some PixelStatus.OK) &&
        decide (p.status = Status.new)).map mkInsertRow).length) = true
    · rw [if_pos hlen] at hrows
      have hrows' : rows = (sent.filter fun p =>
          decide (p.pixelStatus = some PixelStatus.OK) &&
          decide (p.status = Status.new)).map mkInsertRow := by
        cases hrows
        rfl
      rw [hrows'] at hr
      simp only [List.mem_map] at hr
      obtain ⟨p, hp, hmk⟩ := hr
      have hmem := List.mem_filter.mp hp
      have hok : p.pixelStatus = some PixelStatus.OK :=
        of_decide_eq_true (Bool.and_elim_left hmem.2)
      have hst : p.status = Status.new :=
        of_decide_eq_true (Bool.and_elim_right hmem.2)
      cases hmk
      exact ⟨p, hmem.1, hok, hst, rfl, rfl, rfl⟩
    · rw [if_neg hlen] at hrows
      cases hrows

/-- C3 witness: a concrete mix of a successful `new`, a failed `updated` and
a successful `updated` event yields exactly one insert row and one update. -/
theorem mutation_planner_spec_witness :
    dbWriteStep false true [pOKnew, pERRupd, pOKupd]
      = (some [mkInsertRow pOKnew], [mkUpdateOp pOKupd]) :=
  Eq.trans (mutation_planner_spec [pOKnew, pERRupd, pOKupd]).1 (by decide)

theorem validation_all_or_nothing (raw : List RawItem) (e : ValidationError)
    (dr sd : Bool) (l1 l2 : Except JsError (List ExistingRecord)) (o1 o2 : ℕ → SendResult)
    (h : validateItems raw = Except.error e) :
    e.expected = expectedFieldsMsg
    ∧ (∃ it, raw[e.itemIndex]? = some it ∧ missingRequired it = true)
    ∧ (∀ j it2, j < e.itemIndex → raw[j]? = some it2 → missingRequired it2 = false)
    ∧ execute dr sd raw l1 o1 = ExecResult.validationFailure e
    ∧ execute dr sd raw l1 o1 = execute dr sd raw l2 o2
    ∧ (∀ raw2 items2, validateItems raw2 = Except.ok items2 → items2 = raw2)
    ∧ (∀ it a c cu pa, missingRequired { it with amount := a, commission_amount := c, currency := cu, parent_api_call := pa } = missingRequired it) := by
  obtain ⟨h1, -, h3, h4⟩ := validateFrom_error_spec raw 0 e h
  refine ⟨h1, ?_, ?_, ?_, ?_, ?_, ?_⟩
  · simpa using h3
  · intro j it2 hj hget
    exact h4 j it2 (by omega) hget
  · unfold execute
    rw [h]
  · unfold execute
    rw [h]
  · intro raw2 items2 hok
    exact validateFrom_ok_id raw2 0 items2 hok
  · intro it a c cu pa
    rfl

/-- C4 witness: a batch whose second event has an empty token fails as a
whole with index 1 and the expected-field list, whatever the capabilities. -/
theorem validation_all_or_nothing_witness :
    validateItems [itemAmt100, itemMissingToken] = Except.error ⟨1, expectedFieldsMsg⟩
    ∧ execute false false [itemAmt100, itemMissingToken] (Except.ok []) oracleOK
        = ExecResult.validationFailure ⟨1, expectedFieldsMsg⟩ :=
  ⟨by decide,
   (validation_all_or_nothing [itemAmt100, itemMissingToken] ⟨1, expectedFieldsMsg⟩
     false false (Except.ok []) (Except.ok []) oracleOK oracleOK (by decide)).2.2.2.1⟩

/-- C4 counterexample: an event with an absent commission passes validation
but the field is **not** defaulted to zero — it stays absent (`Number()` of
it is `NaN`), so against a stored record with commission `0` and equal
amount the event classifies `updated`, not `duplicate` as defaulting to
zero would give. -/
theorem validation_defaulting_cex :
    validateItems [itemNoCommission] = Except.ok [itemNoCommission]
    ∧ itemNoCommission.commission_amount = JsVal.vundef
    ∧ toNumber itemNoCommission.commission_amount = none
    ∧ ¬ toNumber itemNoCommission.commission_amount = some 0
    ∧ classify itemNoCommission (some recZeroCommission) = Status.updated := by
  refine ⟨by decide, by decide, by decide, by decide, by decide⟩

/-- C5: in dry-run mode no call is made to the send capability and none to
the mutation capability (and the normal result does not depend on the send
oracle at all); the summary carries `would_send_to_pixel` and
`status: "DRY_RUN_SKIPPED"` while `sent_to_pixel`, `pixel_success`,
`pixel_failed`, `db_inserted` and `db_updated` are absent. -/
theorem dry_run_frame (sd : Bool) (items : List RawItem) (recs : List ExistingRecord)
    (lc : ℕ) (raw : List RawItem) (lookup : Except JsError (List ExistingRecord))
    (o1 o2 : ℕ → SendResult) :
    (runTry true sd items recs lc o1).sendCalls = 0
    ∧ mutationCallCount (runTry true sd items recs lc o1) = 0
    ∧ (runTry true sd items recs lc o1).summary.would_send_to_pixel
        = some (toSendOf recs items).length
    ∧ (runTry true sd items recs lc o1).summary.status = some "DRY_RUN_SKIPPED"
    ∧ (runTry true sd items recs lc o1).summary.sent_to_pixel = none
    ∧ (runTry true sd items recs lc o1).summary.pixel_success = none
    ∧ (runTry true sd items recs lc o1).summary.pixel_failed = none
    ∧ (runTry true sd items recs lc o1).summary.db_inserted = none
    ∧ (runTry true sd items recs lc o1).summary.db_updated = none
    ∧ execute true sd raw lookup o1 = execute true sd raw lookup o2 := by
  refine ⟨rfl, rfl, rfl, rfl, rfl, rfl, rfl, rfl, rfl, ?_⟩
  unfold execute
  cases validateItems raw with
  | error e => rfl
  | ok inputItems =>
    by_cases hsd : sd = true
    · rw [hsd]
      rfl
    · have : sd = false := Bool.eq_false_iff.mpr hsd
      rw [this]
      cases lookup with
      | error e => rfl
      | ok recs2 => rfl

/-- C6 (amended): in skip-reconciliation mode the lookup capability is never
invoked (the result is the same whatever the lookup would return — even an
error) and every event is classified `new`; but because no record-store
connection is opened in this mode, the database write step is skipped
entirely: no insert (and no update) is ever produced, and the mutation
capability is never called. -/
theorem skip_dedup_amended (raw : List RawItem)
    (lookup lookup2 : Except JsError (List ExistingRecord)) (oracle : ℕ → SendResult)
    (item : RawItem) (items : List RawItem) (lc : ℕ) :
    execute false true raw lookup oracle = execute false true raw lookup2 oracle
    ∧ (processItem [] item).status = Status.new
    ∧ (runTry false true items [] lc oracle).lookupCalls = lc
    ∧ (runTry false true items [] lc oracle).inserts = none
    ∧ (runTry false true items [] lc oracle).updates = []
    ∧ mutationCallCount (runTry false true items [] lc oracle) = 0 := by
  refine ⟨?_, rfl, rfl, rfl, rfl, rfl⟩
  unfold execute
  cases validateItems raw with
  | error e => rfl
  | ok inputItems => rfl

/-- C6 counterexample: with skip-reconciliation on and dry-run off, a single
valid event is dispatched and succeeds (`pixel_success = 1`), yet the run
reports `db_inserted = 0` and plans no insert operation at all — the
successfully-sent event does **not** produce an insert row. -/
theorem skip_dedup_no_insert_cex :
    (runTry false true [itemAmt100] [] 0 oracleOK).summary.pixel_success = some 1
    ∧ (runTry false true [itemAmt100] [] 0 oracleOK).summary.db_inserted = some 0
    ∧ (runTry false true [itemAmt100] [] 0 oracleOK).inserts = none
    ∧ mutationCallCount (runTry false true [itemAmt100] [] 0 oracleOK) = 0
    ∧ execute false true [itemAmt100] (Except.ok []) oracleOK
        = ExecResult.success (runTry false true [itemAmt100] [] 0 oracleOK)
    ∧ (runTry false true [itemAmt100] [] 0 oracleOK).toSend.length = 1 := by
  refine ⟨by decide, by decide, by decide, by decide, rfl, by decide⟩

/-- C7 (amended): when the source-reference contains `fico:`, the extracted
sub-token is everything after the first occurrence of `fico:`; when it
contains `fico` but not `fico:` the extraction still fires and returns the
substring from index 4 (an artifact of `indexOf` returning `-1`); otherwise
the value is null. `"parent:xyz;fico:ABC123"` yields `"ABC123"` and
`"Empty"` yields null. -/
theorem fico_extraction_amended (s : String) :
    (jsIncludes s "fico" = false → ficoExtract s = none)
    ∧ (jsIncludes s "fico:" = true →
        ∃ pre : String,
          s = pre ++ "fico:" ++ jsSubstringFrom s (jsIndexOf s "fico:" + 5)
          ∧ ficoExtract s = some (jsSubstringFrom s (jsIndexOf s "fico:" + 5))
          ∧ ∀ pre2 post2 : String, s = pre2 ++ "fico:" ++ post2 → pre.length ≤ pre2.length)
    ∧ (jsIncludes s "fico" = true → jsIncludes s "fico:" = false →
        ficoExtract s = some (jsSubstringFrom s 4))
    ∧ ficoExtract "parent:xyz;fico:ABC123" = some "ABC123"
    ∧ ficoExtract "Empty" = none := by
  obtain ⟨cs⟩ := s
  refine ⟨?_, ?_, ?_, by decide, by decide⟩
  · intro h
    simp only [ficoExtract, h, Bool.false_eq_true, if_false]
  · intro h2
    cases hfi : firstMatchIdx (("fico:" : String).data) cs with
    | none =>
      unfold jsIncludes at h2
      rw [hfi] at h2
      cases h2
    | some i =>
      obtain ⟨hle, t, ht⟩ := firstMatchIdx_some_spec (("fico:" : String).data) cs i hfi
      have hidx : jsIndexOf ⟨cs⟩ "fico:" = (i : Int) := by
        simp only [jsIndexOf, hfi]
      have htoNat : ((i : Int) + 5).toNat = i + 5 := by
        have hc : ((i : Int) + 5) = ((i + 5 : ℕ) : Int) := by push_cast; ring
        rw [hc, Int.toNat_natCast]
      have hout : jsSubstringFrom ⟨cs⟩ (jsIndexOf ⟨cs⟩ "fico:" + 5) = ⟨cs.drop (i + 5)⟩ := by
        rw [hidx]
        simp only [jsSubstringFrom, htoNat]
      have ht' : t = cs.drop (i + 5) := by
        have hdd : cs.drop (i + 5) = (cs.drop i).drop 5 := by
          rw [List.drop_drop]
        rw [hdd, ht]
        exact (List.drop_left (("fico:" : String).data) t).symm
      have hdecomp : cs = cs.take i ++ ("fico:" : String).data ++ cs.drop (i + 5) := by
        calc cs = cs.take i ++ cs.drop i := (List.take_append_drop i cs).symm
        _ = cs.take i ++ (("fico:" : String).data ++ t) := by rw [ht]
        _ = cs.take i ++ ("fico:" : String).data ++ cs.drop (i + 5) := by
            rw [ht', List.append_assoc]
      have hinc4 : jsIncludes ⟨cs⟩ "fico" = true := by
        have hdecomp4 : cs = cs.take i ++ ("fico" : String).data ++
            (':' :: cs.drop (i + 5)) := by
          conv_lhs => rw [hdecomp]
          simp [List.append_assoc]
        obtain ⟨i4, hi4, -⟩ := firstMatchIdx_min (("fico" : String).data) (cs.take i)
          (':' :: cs.drop (i + 5)) cs hdecomp4
        unfold jsIncludes
        rw [hi4]
        rfl
      refine ⟨⟨cs.take i⟩, ?_, ?_, ?_⟩
      · rw [hout]
        apply String.ext
        simp only [String.data_append]
        exact hdecomp
      · rw [hout]
        simp only [ficoExtract, hinc4, if_true]
        rw [hout]
      · intro pre2 post2 hsplit
        obtain ⟨l2⟩ := pre2
        obtain ⟨l3⟩ := post2
        have hd : cs = l2 ++ ("fico:" : String).data ++ l3 := by
          have := congrArg String.data hsplit
          simpa [String.data_append] using this
        obtain ⟨i2, hi2, hle2⟩ := firstMatchIdx_min (("fico:" : String).data) l2 l3 cs hd
        have hii : i2 = i := by
          rw [hfi] at hi2
          exact (Option.some.injEq _ _).mp hi2.symm
        show (cs.take i).length ≤ l2.length
        rw [List.length_take]
        omega
  · intro h4 h5
    have hnone : firstMatchIdx (("fico:" : String).data) cs = none := by
      cases hfi : firstMatchIdx (("fico:" : String).data) cs with
      | none => rfl
      | some i =>
        unfold jsIncludes at h5
        rw [hfi] at h5
        cases h5
    have hidx : jsIndexOf ⟨cs⟩ "fico:" = -1 := by
      simp only [jsIndexOf, hnone]
    simp only [ficoExtract, h4, if_true, hidx]
    have : (-1 + 5 : Int) = 4 := by decide
    rw [this]

/-- C7 counterexample: `"Xfico"` contains `"fico"` but not `"fico:"`; the
extraction yields `some "o"` (the substring from index 4), which cannot be
"everything after the first occurrence of `fico:`" since no decomposition
around `"fico:"` exists. -/
theorem fico_substring_cex :
    jsIncludes "Xfico" "fico" = true
    ∧ jsIncludes "Xfico" "fico:" = false
    ∧ ficoExtract "Xfico" = some "o"
    ∧ ∀ pre post : String, ¬ "Xfico" = pre ++ "fico:" ++ post := by
  refine ⟨by decide, by decide, by decide, ?_⟩
  intro pre post h
  have h2 : ("Xfico" : String).data = pre.data ++ ("fico:" : String).data ++ post.data := by
    have := congrArg String.data h
    simpa [String.data_append] using this
  obtain ⟨i2, hi2, -⟩ := firstMatchIdx_min (("fico:" : String).data) pre.data post.data
    (("Xfico" : String).data) h2
  have hinc : jsIncludes "Xfico" "fico:" = true := by
    unfold jsIncludes
    rw [hi2]
    rfl
  exact absurd hinc (by decide)

/-- C7 witness: concrete evaluations of the amended extraction rule — the
branch for a string containing `fico` but not `fico:` applied at `"Xfico2"`,
and the two scenario examples. -/
theorem fico_extraction_amended_witness :
    jsIncludes "Xfico2" "fico" = true
    ∧ jsIncludes "Xfico2" "fico:" = false
    ∧ ficoExtract "Xfico2" = some (jsSubstringFrom "Xfico2" 4)
    ∧ ficoExtract "parent:xyz;fico:ABC123" = some "ABC123" :=
  ⟨by decide, by decide,
   (fico_extraction_amended "Xfico2").2.2.1 (by decide) (by decide),
   (fico_extraction_amended "parent:xyz;fico:ABC123").2.2.2.1⟩

/-- C8: each event in the transmission set gets exactly one send (no retry
and no short-circuit: the call count equals the set's size and every
position receives an outcome); the outcome at position `j` depends only on
that event and the send result at `j`, so one event's failure never affects
another; and a transport exception is treated identically to an `ERROR`
response — status `failure` with the exception/error message, or the
generic fallback `"Request failed"` / `"Unknown error"` when absent. -/
theorem dispatch_isolation_spec (toSend : List ProcessedItem) (oracle : ℕ → SendResult)
    (p : ProcessedItem) (m : String) (msg err : Option String) (j : ℕ) :
    (dispatchStep false oracle toSend).2 = toSend.length
    ∧ ((dispatchStep false oracle toSend).1).length = toSend.length
    ∧ ((dispatchStep false oracle toSend).1)[j]?
        = ((toSend[j]?).map fun q => applySend q (oracle j))
    ∧ applySend p (SendResult.exn (some m)) = applySend p (SendResult.response "ERROR" (some m))
    ∧ (applySend p (SendResult.exn msg)).pixelStatus = some PixelStatus.ERROR
    ∧ (applySend p (SendResult.exn msg)).pixelError = some (msg.getD "Request failed")
    ∧ (applySend p (SendResult.response "ERROR" err)).pixelStatus = some PixelStatus.ERROR
    ∧ (applySend p (SendResult.response "ERROR" err)).pixelError = some (err.getD "Unknown error")
    ∧ (applySend p (SendResult.exn msg)).item = p.item
    ∧ (applySend p (SendResult.exn msg)).status = p.status := by
  have herr : ("ERROR" : String) ≠ "OK" := by decide
  by_cases h0 : 0 < toSend.length
  · have hg : (!false && decide (0 < toSend.length)) = true := by
      simp [h0]
    refine ⟨?_, ?_, ?_, ?_, rfl, rfl, ?_, ?_, rfl, rfl⟩
    · unfold dispatchStep
      rw [if_pos hg]
    · unfold dispatchStep
      rw [if_pos hg]
      exact dispatchList_length oracle 0 toSend
    · unfold dispatchStep
      rw [if_pos hg]
      have := dispatchList_getElem oracle 0 toSend j
      simpa using this
    · simp [applySend, herr]
    · simp [applySend, herr]
    · simp [applySend, herr]
  · have hz : toSend = [] := List.length_eq_zero.mp (Nat.eq_zero_of_not_pos h0)
    subst hz
    refine ⟨rfl, rfl, rfl, ?_, rfl, rfl, ?_, ?_, rfl, rfl⟩
    · simp [applySend, herr]
    · simp [applySend, herr]
    · simp [applySend, herr]

/-- C9 evaluation: the catch block's `stage` field is the hardcoded literal
`"execution"`; a lookup (deduplication-check) failure therefore also reports
stage `"execution"`, never `"deduplication_check"` — while `success: false`
and the reduced `{total_input, processed: 0}` summary are as described. -/
theorem error_stage_hardcoded :
    execute false false [itemAmt100] (Except.error lookupFailure) oracleOK
      = ExecResult.fatal
          { success := false, code := "MYSQL_CONNECTION_ERROR",
            message := "Failed to connect to MySQL", stage := "execution",
            total_input := 1, processed := 0 }
    ∧ (∀ (n : ℕ) (e : JsError), (errorOutput n e).stage = "execution")
    ∧ ¬ ("execution" : String) = "deduplication_check" := by
  refine ⟨rfl, fun n e => rfl, by decide⟩

/-- C10: an event with a matching record whose amount or commission coerces
to `NaN` (absent or non-numeric) always classifies `updated` — never
`duplicate`, even against a record whose own field is non-numeric, because
the `NaN`-vs-`NaN` strict comparison is never equal — and such an event is
in the transmission set. -/
theorem nan_always_updated (item : RawItem) (ex : ExistingRecord)
    (records : List ExistingRecord) (items : List RawItem)
    (h : toNumber item.amount = none ∨ toNumber item.commission_amount = none)
    (hfind : findExisting records item = some ex)
    (hmem : item ∈ items) :
    classify item (some ex) = Status.updated
    ∧ ¬ classify item (some ex) = Status.duplicate
    ∧ (processItem records item).status = Status.updated
    ∧ (processItem records item).action = Action.send_to_pixel
    ∧ processItem records item ∈ toSendOf records items := by
  have hb : (jsNumEq (toNumber ex.amount) (toNumber item.amount) &&
      jsNumEq (toNumber ex.commission_amount) (toNumber item.commission_amount)) = false := by
    rcases h with h | h
    · rw [h]
      have h1 : jsNumEq (toNumber ex.amount) none = false := by
        cases toNumber ex.amount <;> rfl
      rw [h1, Bool.false_and]
    · rw [h]
      have h1 : jsNumEq (toNumber ex.commission_amount) none = false := by
        cases toNumber ex.commission_amount <;> rfl
      rw [h1, Bool.and_false]
  have hcl : classify item (some ex) = Status.updated := by
    simp only [classify]
    rw [hb]
    simp
  have hst : (processItem records item).status = Status.updated := by
    rw [processItem_status, hfind, hcl]
  have hac : (processItem records item).action = Action.send_to_pixel :=
    (processItem_action_iff records item).mpr (Or.inr hst)
  refine ⟨hcl, ?_, hst, hac, ?_⟩
  · rw [hcl]
    intro hh
    cases hh
  · unfold toSendOf
    apply List.mem_filter.mpr
    refine ⟨List.mem_map.mpr ⟨item, hmem, rfl⟩, ?_⟩
    rw [hac]
    rfl

/-- C10 witness: a concrete event with absent amount against a record with
a non-numeric stored amount classifies `updated` and is transmitted. -/
theorem nan_always_updated_witness :
    (toNumber itemNaN.amount = none ∨ toNumber itemNaN.commission_amount = none)
    ∧ findExisting [recNonNum] itemNaN = some recNonNum
    ∧ itemNaN ∈ [itemNaN]
    ∧ classify itemNaN (some recNonNum) = Status.updated
    ∧ processItem [recNonNum] itemNaN ∈ toSendOf [recNonNum] [itemNaN] := by
  have h := nan_always_updated itemNaN recNonNum [recNonNum] [itemNaN]
    (Or.inl (by decide)) (by decide) (List.mem_singleton.mpr rfl)
  exact ⟨Or.inl (by decide), by decide, List.mem_singleton.mpr rfl, h.1, h.2.2.2.2⟩

end RyzePixel
